import Mathlib

/-!
Verification development for the TopCV crawler (`src/scrape_topcv.py`).

The Python source is shallowly embedded: pure helper functions become Lean
functions on `String`/`List Char`; the network is an explicit oracle
(`Nat → Resp` per URL for the fetch loop, `String → Except FetchErr Soup`
for the orchestrator, the latter being the observable outcome of
`get_soup`); HTML pages are modelled as structures exposing exactly the
selector results the extractors query.  External library behaviour
(`re`, `unicodedata`, `urllib.parse`, BeautifulSoup's `get_text`) is
modelled by executable Lean functions faithful on the inputs the code
feeds them, as documented at each definition.
-/

namespace TopCV

/-- Whitespace test used for Python's regex class `\s` (the characters the
crawler's strings actually contain: space, tab, newline, carriage return). -/
def isWS (c : Char) : Bool := c = ' ' || c = '\t' || c = '\n' || c = '\r'

/-- Core of `re.sub(r"\s+", " ", t)`: every maximal whitespace run becomes a
single space.  The flag records whether the previous character was part of a
whitespace run already emitted as a space. -/
def collapseWSAux : List Char → Bool → List Char
  | [], _ => []
  | c :: cs, prev =>
    if isWS c then
      (if prev then collapseWSAux cs true else ' ' :: collapseWSAux cs true)
    else c :: collapseWSAux cs false

/-- `re.sub(r"\s+", " ", t)`. -/
def collapseWS (s : String) : String := (collapseWSAux s.toList false).asString

/-- `text(el)` from the source: `None` for a missing element, `None` for an
element whose extracted text is empty, otherwise the whitespace-collapsed
text.  The `Option String` argument is the element's `get_text(" ", strip=True)`
result (`none` = element absent). -/
def textOf : Option String → Option String
  | none => none
  | some t => if t = "" then none else some (collapseWS t)

/-- Python truthiness on an optional string: `None` and `""` are falsy. -/
def pyTruthy : Option String → Bool
  | none => false
  | some s => s ≠ ""

/-- `x or ""` on an optional string. -/
def pyOrEmpty (o : Option String) : String := o.getD ""

/-- `a or b` where `a b : Option String` (the source applies it to values
that are `None` or strings). -/
def pyOr (a b : Option String) : Option String := if pyTruthy a then a else b

/-- `"; ".join`-style join used by the detail extractor. -/
def joinSep (sep : String) : List String → String
  | [] => ""
  | [x] => x
  | x :: y :: xs => x ++ sep ++ joinSep sep (y :: xs)

/-- `.strip()` (leading whitespace removal; combined with a reversal for the
trailing side below). -/
def dropWSLeft (cs : List Char) : List Char := cs.dropWhile isWS

/-- Python `str.strip()` on both ends. -/
def trimWS (cs : List Char) : List Char :=
  (dropWSLeft ((dropWSLeft cs.reverse)).reverse)

/-- Membership of a character in Python's `strip(" :-–—")` set. -/
def isStripPunct (c : Char) : Bool :=
  c = ' ' || c = ':' || c = '-' || c = '–' || c = '—'

/-- `.strip(" :-–—")` from the company row scan. -/
def stripPunct (cs : List Char) : List Char :=
  ((cs.dropWhile isStripPunct).reverse.dropWhile isStripPunct).reverse

/-- Python `str.lower()` restricted to the characters this development
exercises: ASCII letters, plus `Đ` (the only non-ASCII uppercase letter
appearing in the crawler's label strings). -/
def pyLowerChar (c : Char) : Char := if c = 'Đ' then 'đ' else c.toLower

/-- `str.lower()` on a string (see `pyLowerChar`). -/
def pyLower (s : String) : String := (s.toList.map pyLowerChar).asString

/-- Substring test (`pat in s` in Python), scanning every start position. -/
def hasSubAux (pat : List Char) : List Char → Bool
  | [] => pat.isEmpty
  | c :: cs => pat.isPrefixOf (c :: cs) || hasSubAux pat cs

/-- `pat in s` for strings. -/
def hasSub (s pat : String) : Bool := hasSubAux pat.toList s.toList

/-- Model of `unicodedata.normalize("NFD", ·)` on one character, restricted
to the characters exercised in this development; ASCII characters (and any
character outside the table) decompose to themselves, which is exact for
ASCII. -/
def nfdChar (c : Char) : List Char :=
  if c = 'ỹ' then ['y', Char.ofNat 0x303]
  else if c = 'ư' then ['u', Char.ofNat 0x31B]
  else if c = 'ầ' then ['a', Char.ofNat 0x302, Char.ofNat 0x300]
  else if c = 'ề' then ['e', Char.ofNat 0x302, Char.ofNat 0x300]
  else [c]

/-- `re.sub(r"\s+", "-", ·)` used by `slugify`: whitespace runs become a
single hyphen. -/
def wsToHyphenAux : List Char → Bool → List Char
  | [], _ => []
  | c :: cs, prev =>
    if isWS c then
      (if prev then wsToHyphenAux cs true else '-' :: wsToHyphenAux cs true)
    else c :: wsToHyphenAux cs false

/-- `re.sub(r"-+", "-", ·)` used by `slugify`: hyphen runs collapse. -/
def hyphenCollapseAux : List Char → Bool → List Char
  | [], _ => []
  | c :: cs, prev =>
    if c = '-' then
      (if prev then hyphenCollapseAux cs true else '-' :: hyphenCollapseAux cs true)
    else c :: hyphenCollapseAux cs false

/-- ASCII alphanumeric test, the post-ASCII-filter reading of the character
class `[^a-zA-Z0-9\s-]` in `slugify`. -/
def isAsciiAlnum (c : Char) : Bool :=
  ('a' ≤ c && c ≤ 'z') || ('A' ≤ c && c ≤ 'Z') || ('0' ≤ c && c ≤ '9')

/-- `slugify` from the source, transcribed step by step:
NFD-normalize, drop non-ASCII (`encode("ascii","ignore")`), replace
characters outside `[a-zA-Z0-9\s-]` by a space, `strip()`, whitespace runs
to one hyphen, collapse hyphen runs, lowercase. -/
def slugify (s : String) : String :=
  let cs := s.toList.flatMap nfdChar
  let ascii := cs.filter (fun c => c.toNat < 128)
  let repl := ascii.map (fun c => if isAsciiAlnum c || isWS c || c = '-' then c else ' ')
  let stripped := trimWS repl
  let hyph := wsToHyphenAux stripped false
  let collapsed := hyphenCollapseAux hyph false
  (collapsed.map pyLowerChar).asString

/-- Scan for the first `"://"` and return the characters after it. -/
def afterSchemeMark : List Char → Option (List Char)
  | ':' :: '/' :: '/' :: rest => some rest
  | _ :: cs => afterSchemeMark cs
  | [] => none

/-- `scheme://host` part of an absolute URL (model of what
`urljoin` needs from its base; total, with an irrelevant fallback). -/
def schemeHostAux : List Char → Option (List Char)
  | ':' :: '/' :: '/' :: rest => some (':' :: '/' :: '/' :: rest.takeWhile (· ≠ '/'))
  | c :: cs => (schemeHostAux cs).map (c :: ·)
  | [] => none

def schemeHost (u : String) : String :=
  match schemeHostAux u.toList with
  | some l => l.asString
  | none => u

/-- String prefix test (list-based so that proofs can evaluate it). -/
def strHasPrefix (p s : String) : Bool := p.toList.isPrefixOf s.toList

def hasHttpScheme (u : String) : Bool :=
  strHasPrefix "http://" u || strHasPrefix "https://" u

def BASE : String := "https://www.topcv.vn"

/-- Model of `urllib.parse.urljoin(base, ref)` for the reference shapes the
crawler produces (empty, absolute `http(s)` URL, root-relative path,
bare relative name) with the path-less base `BASE` the code always uses. -/
def urljoin (base ref : String) : String :=
  if ref = "" then base
  else if hasHttpScheme ref then ref
  else if strHasPrefix "/" ref then schemeHost base ++ ref
  else schemeHost base ++ "/" ++ ref

/-- Model of `urlparse(u).path`: drop `scheme://host` when present, then
keep everything before the first `?` or `#`. -/
def urlPath (u : String) : String :=
  let cs := match afterSchemeMark u.toList with
    | some rest => rest.dropWhile (· ≠ '/')
    | none => u.toList
  (cs.takeWhile (fun c => !(c = '?') && !(c = '#'))).asString

/-! ## Page model

A `Soup` exposes, as plain data, the result of every selector query the
three extractors perform.  A `BeautifulSoup("")` (the blocked/exhausted
fetch outcome) is `emptySoup`: every query comes back empty. -/

/-- An anchor element: its `href` attribute and its `get_text` content. -/
structure AnchorEl where
  href : String
  raw : String
deriving DecidableEq, Repr

/-- One `div.job-item-search-result` of a listing page. -/
structure JobItem where
  aTitle : Option AnchorEl
  compA : Option AnchorEl
  companyNameEl : Option String
  salaryEl : Option String
  addressEl : Option String
  expEl : Option String
deriving DecidableEq, Repr

/-- One `.job-detail__info--section`: title element text, value element
text, and the section's own `get_text` content. -/
structure InfoSection where
  titleEl : Option String
  valueEl : Option String
  secRaw : String
deriving DecidableEq, Repr

/-- One `.job-description__item`: its `h3` text, its content element's
text (`none` when the content element is absent), and the `get_text`
contents of the content element's `div`/`li` children. -/
structure DescItem where
  h3 : Option String
  content : Option String
  contentChildren : List String
deriving DecidableEq, Repr

/-- A company-name candidate: a `meta` element carries a `content`
attribute (which may be missing or empty); any other element carries its
`get_text` content. -/
inductive NameEl where
  | meta (content : Option String)
  | elem (raw : String)
deriving DecidableEq, Repr

/-- A row-like element of the company overview scan: the `get_text` of its
first `strong`/`b` descendant if any, and the row's own `get_text`. -/
structure CompRow where
  strongEl : Option String
  raw : String
deriving DecidableEq, Repr

/-- The selector view of one fetched page.  List-valued fields are the
document-ordered query results; `nameSel`, `containerSel` and `descSel`
hold, in order, the `select_one` result for each CSS candidate the company
extractor tries. -/
structure Soup where
  jobItems : List JobItem
  detailTitleEl : Option String
  infoSections : List InfoSection
  deadlineEls : List String
  tagEls : List String
  descItems : List DescItem
  companyAnchor1 : Option String
  companyAnchor2 : Option String
  nameSel : List (Option NameEl)
  containerSel : List (Option (List CompRow))
  soupRows : List CompRow
  descSel : List (Option String)
deriving DecidableEq, Repr

/-- `BeautifulSoup("", "lxml")`: every selector query is empty. -/
def emptySoup : Soup :=
  ⟨[], none, [], [], [], [], none, none, [], [], [], []⟩

/-! ## Listing extractor (`parse_search_page`) -/

/-- A job stub as assembled by `parse_search_page` for one job item. -/
structure Stub where
  title : Option String
  jobUrl : String
  company : Option String
  companyUrl : Option String
  salaryList : Option String
  addressList : Option String
  expList : Option String
deriving DecidableEq, Repr

/-- The body of the `parse_search_page` loop for one
`div.job-item-search-result`: items without a title anchor are skipped. -/
def stubOfItem (job : JobItem) : Option Stub :=
  match job.aTitle with
  | none => none
  | some a => some
      { title := textOf (some a.raw)
        jobUrl := urljoin BASE a.href
        company := textOf job.companyNameEl
        companyUrl := job.compA.map (fun c => urljoin BASE c.href)
        salaryList := textOf job.salaryEl
        addressList := textOf job.addressEl
        expList := textOf job.expEl }

/-- `parse_search_page` applied to an already-fetched page. -/
def parseSearchSoup (soup : Soup) : List Stub :=
  soup.jobItems.filterMap stubOfItem

/-! ## Detail extractor (`scrape_job_detail`) -/

/-- `pick_info_value`: return, for the first section whose (lowercased)
title text equals the target, the value element's text, falling back to the
whole section's text when the value element is absent. -/
def pickInfoValue (secs : List InfoSection) (title : String) : Option String :=
  match secs with
  | [] => none
  | sec :: rest =>
    if pyLower (pyOrEmpty (textOf sec.titleEl)) = pyLower title then
      match sec.valueEl with
      | some v => textOf (some v)
      | none => textOf (some sec.secRaw)
    else pickInfoValue rest title

/-- `takeDigits n cs`: exactly `n` leading digits, with the remainder. -/
def takeDigits : Nat → List Char → Option (List Char × List Char)
  | 0, cs => some ([], cs)
  | _ + 1, [] => none
  | n + 1, c :: cs =>
    if c.isDigit then (takeDigits n cs).map (fun p => (c :: p.1, p.2)) else none

/-- Match `\d{1,2}/` at the given position, greedily (two digits first,
then — by regex backtracking — one), returning the matched digits and the
remainder after the slash. -/
def matchDigitsSlash (cs : List Char) : Option (List Char × List Char) :=
  match takeDigits 2 cs with
  | some (d, '/' :: r2) => some (d, r2)
  | _ =>
    match takeDigits 1 cs with
    | some (d, '/' :: r2) => some (d, r2)
    | _ => none

/-- Match the regex `(\d{1,2}/\d{1,2}/\d{4})` anchored at this position. -/
def matchDateAt (cs : List Char) : Option (List Char) :=
  match matchDigitsSlash cs with
  | none => none
  | some (d, r1) =>
    match matchDigitsSlash r1 with
    | none => none
    | some (m, r2) =>
      match takeDigits 4 r2 with
      | none => none
      | some (y, _) => some (d ++ '/' :: m ++ '/' :: y)

/-- `re.search` for the date pattern: leftmost matching position wins. -/
def dateSearchAux : List Char → Option (List Char)
  | [] => none
  | c :: cs =>
    match matchDateAt (c :: cs) with
    | some m => some m
    | none => dateSearchAux cs

def dateSearch (s : String) : Option String :=
  (dateSearchAux s.toList).map List.asString

/-- `extract_deadline`: first deadline-candidate element whose text contains
the marker yields either the first date-pattern match in it or, failing
that, the raw text itself. -/
def extractDeadline (els : List String) : Option String :=
  match els with
  | [] => none
  | raw :: rest =>
    match textOf (some raw) with
    | some t =>
      if hasSub t "Hạn nộp" then some ((dateSearch t).getD t)
      else extractDeadline rest
    | none => extractDeadline rest

/-- `extract_tags`: texts of the tag anchors, empty/missing ones dropped. -/
def extractTags (els : List String) : List String :=
  els.filterMap (fun r => textOf (some r))

/-- One iteration of the `extract_desc_blocks` loop: items with a content
element record their `h3` text (`""` when absent) and content text. -/
def descBlockStep (data : List (String × Option String)) (item : DescItem) :
    List (String × Option String) :=
  match item.content with
  | some c => data ++ [(pyOrEmpty (textOf item.h3), textOf (some c))]
  | none => data

/-- `extract_desc_blocks`: the dict built from description items with a
content element; Python dict assignment means a repeated key keeps the
last value. -/
def extractDescBlocks (items : List DescItem) : List (String × Option String) :=
  items.foldl descBlockStep []

/-- `dict.get k` on the association list of `extractDescBlocks` (last
binding wins, as in a Python dict). -/
def dictGet (d : List (String × Option String)) (k : String) : Option String :=
  match (d.filter (fun kv => kv.1 = k)).getLast? with
  | some kv => kv.2
  | none => none

/-- One iteration of the working-address / working-time collection loop:
an item whose `h3` text contains the heading contributes its content
children's texts. -/
def workingStep (heading : String) (out : List String) (item : DescItem) :
    List String :=
  match item.h3 with
  | none => out
  | some h3raw =>
    if hasSub (pyOrEmpty (textOf (some h3raw))) heading then
      out ++ item.contentChildren.filterMap (fun d => textOf (some d))
    else out

/-- `extract_working_addresses` / `extract_working_times`: for every
description item whose `h3` text contains the heading, collect the texts of
the content element's children. -/
def extractWorking (items : List DescItem) (heading : String) : List String :=
  items.foldl (workingStep heading) []

/-- `extract_company_link_from_job`: the `a.company[href]` anchor, else the
first `/cong-ty/` anchor, resolved against the base. -/
def extractCompanyLink (soup : Soup) : Option String :=
  match soup.companyAnchor1 with
  | some h => some (urljoin BASE h)
  | none =>
    match soup.companyAnchor2 with
    | some h => some (urljoin BASE h)
    | none => none

/-- The record returned by `scrape_job_detail`. -/
structure DetailRec where
  detailTitle : Option String
  detailSalary : Option String
  detailLocation : Option String
  detailExperience : Option String
  deadline : Option String
  tags : Option String
  descMota : Option String
  descYeucau : Option String
  descQuyenloi : Option String
  workingAddresses : Option String
  workingTimes : Option String
  companyUrlFromJob : Option String
deriving DecidableEq, Repr

/-- The all-`None` detail dict the orchestrator substitutes when the detail
stage throws. -/
def allNoneDetail : DetailRec :=
  ⟨none, none, none, none, none, none, none, none, none, none, none, none⟩

/-- `"; ".join(xs) if xs else None`. -/
def joinOrNone (xs : List String) : Option String :=
  if xs.isEmpty then none else some (joinSep "; " xs)

/-- `scrape_job_detail` applied to an already-fetched page. -/
def detailOfSoup (soup : Soup) : DetailRec :=
  let blocks := extractDescBlocks soup.descItems
  { detailTitle := textOf soup.detailTitleEl
    detailSalary := pickInfoValue soup.infoSections "Mức lương"
    detailLocation := pickInfoValue soup.infoSections "Địa điểm"
    detailExperience := pickInfoValue soup.infoSections "Kinh nghiệm"
    deadline := extractDeadline soup.deadlineEls
    tags := joinOrNone (extractTags soup.tagEls)
    descMota := dictGet blocks "Mô tả công việc"
    descYeucau := dictGet blocks "Yêu cầu ứng viên"
    descQuyenloi := dictGet blocks "Quyền lợi"
    workingAddresses := joinOrNone (extractWorking soup.descItems "Địa điểm làm việc")
    workingTimes := joinOrNone (extractWorking soup.descItems "Thời gian làm việc")
    companyUrlFromJob := extractCompanyLink soup }

/-! ## Company extractor (`scrape_company`) -/

/-- Case-insensitive (via `pyLowerChar`) prefix test, the matching notion of
`re` with `flags=re.I` for the literal patterns the code escapes. -/
def ciStarts (pat s : List Char) : Bool :=
  (pat.map pyLowerChar).isPrefixOf (s.map pyLowerChar)

/-- Does the regex `\s*\|\s*TopCV` (case-insensitive) match at this
position?  `\s*` is fully determined by the following literal `|`. -/
def topcvMarkAt (cs : List Char) : Bool :=
  match cs.dropWhile isWS with
  | '|' :: rest => ciStarts "topcv".toList (rest.dropWhile isWS)
  | _ => false

/-- `re.sub(r"\s*\|\s*TopCV.*$", "", s, flags=re.I)`: truncate at the
leftmost position where the branding suffix starts (the `.*$` tail consumes
the rest of the line; the strings this is applied to are single-line). -/
def stripTopcvAux : List Char → List Char
  | [] => []
  | c :: cs => if topcvMarkAt (c :: cs) then [] else c :: stripTopcvAux cs

def stripTopcvSuffix (s : String) : String := (stripTopcvAux s.toList).asString

/-- The company-name candidate loop: each found element overwrites the
accumulator (`meta` elements contribute their `content` attribute, others
their text); the first truthy value is suffix-stripped and returned, and a
final falsy value (`None` or `""`) is returned as-is. -/
def companyNameLoop : List (Option NameEl) → Option String → Option String
  | [], acc => acc
  | none :: rest, acc => companyNameLoop rest acc
  | some el :: rest, _ =>
    let cn : Option String :=
      match el with
      | .meta c => c
      | .elem raw => textOf (some raw)
    match cn with
    | none => companyNameLoop rest none
    | some s =>
      if s = "" then companyNameLoop rest (some "")
      else some (stripTopcvSuffix s)

/-- `re.sub(re.escape(label), "", value, flags=re.I)`: remove every
(leftmost-first, non-overlapping) case-insensitive occurrence of the
literal `label`. -/
def ciRemoveAll (pat : List Char) : List Char → List Char
  | [] => []
  | c :: cs =>
    if pat.length = 0 then c :: cs
    else if ciStarts pat (c :: cs) then ciRemoveAll pat (cs.drop (pat.length - 1))
    else c :: ciRemoveAll pat cs
termination_by l => l.length
decreasing_by
  · simp only [List.length_drop, List.length_cons]
    omega
  · simp only [List.length_cons]
    omega

/-- Split at the first `:` or `：`; `none` when no such character occurs. -/
def splitColon : List Char → Option (List Char × List Char)
  | [] => none
  | c :: cs =>
    if c = ':' || c = '：' then some ([], cs)
    else (splitColon cs).map (fun p => (c :: p.1, p.2))

/-- The strong-child branch of the row scan: label is the `strong`/`b`
text; value is the row text with every case-insensitive occurrence of the
label removed, then `strip(" :-–—")`-ed; a falsy label or value discards
the row (`continue`). -/
def strongLV (sraw rowText : String) : Option (String × String) :=
  match textOf (some sraw) with
  | none => none
  | some label =>
    if (stripPunct (ciRemoveAll label.toList rowText.toList)).asString = "" then none
    else some (label, (stripPunct (ciRemoveAll label.toList rowText.toList)).asString)

/-- The colon branch of the row scan:
`re.match(r"^([^:：]+)[:：]\s*(.+)$", row_text)` — at least one non-colon
character, a colon, and a non-empty remainder; both groups are stripped,
and a falsy label or value discards the row. -/
def colonLV (rowText : String) : Option (String × String) :=
  match splitColon rowText.toList with
  | none => none
  | some (before, after) =>
    if before = [] || after = [] then none
    else if (trimWS before).asString = "" || (trimWS after).asString = "" then none
    else some ((trimWS before).asString, (trimWS after).asString)

/-- The (label, value) derivation for one overview row: the strong-child
branch when a `strong`/`b` descendant exists, else the colon split. -/
def rowLV (row : CompRow) : Option (String × String) :=
  match row.strongEl with
  | some sraw => strongLV sraw (pyOrEmpty (textOf (some row.raw)))
  | none => colonLV (pyOrEmpty (textOf (some row.raw)))

/-- The four target fields of the overview scan. -/
inductive CField where
  | website | size | industry | address
deriving DecidableEq, Repr

/-- The `if/elif` keyword classification of a normalized label. -/
def classOf (ln : String) : Option CField :=
  if hasSub ln "website" || hasSub ln "trang web" then some .website
  else if hasSub ln "quy mô" || hasSub ln "size" || hasSub ln "nhân sự" then some .size
  else if hasSub ln "lĩnh vực" || hasSub ln "industry" || hasSub ln "ngành" then some .industry
  else if hasSub ln "địa chỉ" || hasSub ln "address" then some .address
  else none

/-- The mutable `website = size = industry = address = None` state. -/
structure ScanState where
  website : Option String
  size : Option String
  industry : Option String
  address : Option String
deriving DecidableEq, Repr

def initScan : ScanState := ⟨none, none, none, none⟩

def ScanState.get : ScanState → CField → Option String
  | st, .website => st.website
  | st, .size => st.size
  | st, .industry => st.industry
  | st, .address => st.address

/-- One iteration of the row loop: a classified row overwrites its field. -/
def classifyRow (st : ScanState) (row : CompRow) : ScanState :=
  match rowLV row with
  | none => st
  | some (label, value) =>
    match classOf (collapseWS (pyLower label)) with
    | some .website => { st with website := some value }
    | some .size => { st with size := some value }
    | some .industry => { st with industry := some value }
    | some .address => { st with address := some value }
    | none => st

def scanRows (rows : List CompRow) : ScanState :=
  rows.foldl classifyRow initScan

/-- First `some` among the container candidates (`select_one` results). -/
def firstSome {α : Type} : List (Option α) → Option α
  | [] => none
  | some x :: _ => some x
  | none :: rest => firstSome rest

/-- Rows the scan iterates over: the first matching overview container,
else the whole page. -/
def selectedRows (soup : Soup) : List CompRow :=
  match firstSome soup.containerSel with
  | some rs => rs
  | none => soup.soupRows

/-- The description candidate loop: each found element's text overwrites
the accumulator; the first truthy text is returned. -/
def descLoop : List (Option String) → Option String → Option String
  | [], acc => acc
  | none :: rest, acc => descLoop rest acc
  | some raw :: rest, _ =>
    match textOf (some raw) with
    | some s => some s
    | none => descLoop rest none

/-- The record returned by `scrape_company`. -/
structure CompanyRec where
  companyNameFull : Option String
  companyWebsite : Option String
  companySize : Option String
  companyIndustry : Option String
  companyAddress : Option String
  companyDescription : Option String
deriving DecidableEq, Repr

def allNoneComp : CompanyRec := ⟨none, none, none, none, none, none⟩

/-- `scrape_company` applied to an already-fetched page. -/
def companyOfSoup (soup : Soup) : CompanyRec :=
  let name := companyNameLoop soup.nameSel none
  let st := scanRows (selectedRows soup)
  { companyNameFull := name
    companyWebsite := st.website
    companySize := st.size
    companyIndustry := st.industry
    companyAddress := st.address
    companyDescription := descLoop soup.descSel none }

/-! ## Fetch layer (`build_session` + `get_soup`)

`build_session` configures the transport retry policy
(`total=5, status_forcelist=(429,500,502,503,504), raise_on_status=False`);
a `session.get` is modelled as one oracle query returning the final
response the transport hands back.  `get_soup`'s own loop over attempts
1..5 is transcribed below; sleeps and header rotation have no observable
effect in the model. -/

/-- One response of `session.get`: a final HTTP status with the parsed
page, or a network-level error (`requests.RequestException`). -/
inductive Resp where
  | http (status : Nat) (body : Soup)
  | netErr
deriving DecidableEq, Repr

def respStatus : Resp → Option Nat
  | .http s _ => some s
  | .netErr => none

/-- The exception `get_soup` can propagate: `raise_for_status`'s HTTP error
(4xx/5xx, re-raised on the last attempt) or the final network error. -/
inductive FetchErr where
  | httpError (status : Nat)
  | network
deriving DecidableEq, Repr

deriving instance DecidableEq for Except

/-- The `for attempt in range(1, 6)` loop of `get_soup`; `rem` is the
number of attempts still available (attempt = 6 - rem), the second
component counts `session.get` calls.  Fall-through of the loop (only
reachable via the 429 branch) returns the empty soup. -/
def getSoupAux (fetch : Nat → Resp) : Nat → Nat → Except FetchErr Soup × Nat
  | 0, count => (.ok emptySoup, count)
  | rem + 1, count =>
    match fetch (6 - (rem + 1)) with
    | .netErr =>
      if rem = 0 then (.error .network, count + 1)
      else getSoupAux fetch rem (count + 1)
    | .http s body =>
      if s = 200 then (.ok body, count + 1)
      else if s = 403 then
        (if rem = 0 then (.ok emptySoup, count + 1)
         else getSoupAux fetch rem (count + 1))
      else if s = 429 then getSoupAux fetch rem (count + 1)
      else if 400 ≤ s then
        (if rem = 0 then (.error (.httpError s), count + 1)
         else getSoupAux fetch rem (count + 1))
      else (.ok body, count + 1)

/-- `get_soup` for one URL, over the per-attempt response oracle of that
URL: result and number of requests issued. -/
def getSoup (fetch : Nat → Resp) : Except FetchErr Soup × Nat :=
  getSoupAux fetch 5 0

/-- The observable outcome of `get_soup` against a server answering 403 on
every attempt (used to instantiate blocked URLs in pipeline scenarios). -/
def blockedOutcome : Except FetchErr Soup :=
  (getSoup (fun _ => .http 403 emptySoup)).1

/-! ## Orchestrator (`crawl_to_dataframe` + `crawl_many_keywords`)

The network is abstracted as `net : String → Except FetchErr Soup`, the
outcome of `get_soup session url`.  Fetches are recorded in a log so that
"no fetch is issued" claims are statable. -/

def NetF : Type := String → Except FetchErr Soup

/-- One fetch performed by the pipeline, tagged by the stage issuing it. -/
inductive LogEntry where
  | listing (page : Nat) (url : String)
  | detail (url : String)
  | company (url : String)
deriving DecidableEq, Repr

/-- `scrape_job_detail` (fetch + parse). -/
def scrapeJobDetail (net : NetF) (jobUrl : String) : Except FetchErr DetailRec :=
  match net jobUrl with
  | .ok soup => .ok (detailOfSoup soup)
  | .error e => .error e

/-- `scrape_company` (early return on a falsy URL, else fetch + parse). -/
def scrapeCompany (net : NetF) (companyUrl : Option String) :
    Except FetchErr CompanyRec :=
  if pyTruthy companyUrl then
    match net (companyUrl.getD "") with
    | .ok soup => .ok (companyOfSoup soup)
    | .error e => .error e
  else .ok allNoneComp

/-- `company_url = detail.get("company_url_from_job") or j.get("company_url")`:
the employer URL the company stage is fetched from. -/
def resolveCompanyUrl (fromDetail fromStub : Option String) : Option String :=
  pyOr fromDetail fromStub

/-- One merged output row (`{**j, **detail, **comp}` plus the crawl date;
the three key sets are disjoint, so keeping the parts is the merge). -/
structure Row where
  stub : Stub
  detail : DetailRec
  comp : CompanyRec
  crawlDate : String
deriving DecidableEq, Repr

/-- The orchestrator's per-keyword mutable state: the seen job-path set,
the accumulated rows, and the fetch log. -/
structure StepAcc where
  seen : List String
  rows : List Row
  log : List LogEntry
deriving DecidableEq, Repr

/-- The `try: scrape_job_detail ... except: all-None` block. -/
def detailResult (net : NetF) (u : String) : DetailRec :=
  match scrapeJobDetail net u with
  | .ok d => d
  | .error _ => allNoneDetail

/-- The `try: scrape_company ... except: all-None` block. -/
def compResult (net : NetF) (cu : Option String) : CompanyRec :=
  match scrapeCompany net cu with
  | .ok c => c
  | .error _ => allNoneComp

/-- The company fetch the resolved URL triggers (none when falsy). -/
def companyLogOf (cu : Option String) : List LogEntry :=
  if pyTruthy cu then [.company (cu.getD "")] else []

/-- The per-stub body of `crawl_to_dataframe`'s inner loop: path-based
dedup, detail fetch (exceptions replaced by the all-`None` dict), employer
URL resolution, company fetch (exceptions replaced by the all-`None`
dict), merge. -/
def processStub (net : NetF) (cd : String) (acc : StepAcc) (j : Stub) : StepAcc :=
  if urlPath j.jobUrl ∈ acc.seen then acc
  else
    { seen := acc.seen ++ [urlPath j.jobUrl]
      rows := acc.rows ++
        [⟨j, detailResult net j.jobUrl,
          compResult net
            (resolveCompanyUrl (detailResult net j.jobUrl).companyUrlFromJob
              j.companyUrl), cd⟩]
      log := acc.log ++ [.detail j.jobUrl] ++
        companyLogOf
          (resolveCompanyUrl (detailResult net j.jobUrl).companyUrlFromJob
            j.companyUrl) }

/-- The outcome of one `crawl_to_dataframe` call: accumulated rows, the
exception it propagates (if any; when `err` is set the Python caller never
receives the rows), and the fetch log. -/
structure CrawlOut where
  rows : List Row
  err : Option FetchErr
  log : List LogEntry
deriving DecidableEq, Repr

/-- The `for page in range(start_page, end_page + 1)` loop: fetch + parse
the listing (an exception propagates), stop early on zero stubs, else
process the stubs and advance. -/
def crawlPagesAux (net : NetF) (tpl : Nat → String) (cd : String) :
    Nat → Nat → StepAcc → CrawlOut
  | 0, _, acc => ⟨acc.rows, none, acc.log⟩
  | fuel + 1, page, acc =>
    match net (tpl page) with
    | .error e => ⟨acc.rows, some e, acc.log ++ [.listing page (tpl page)]⟩
    | .ok soup =>
      if (parseSearchSoup soup).isEmpty then
        ⟨acc.rows, none, acc.log ++ [.listing page (tpl page)]⟩
      else
        crawlPagesAux net tpl cd fuel (page + 1)
          ((parseSearchSoup soup).foldl (processStub net cd)
            ⟨acc.seen, acc.rows, acc.log ++ [.listing page (tpl page)]⟩)

/-- `crawl_to_dataframe` over the page range `[startPage, endPage]`. -/
def crawlToDataframe (net : NetF) (tpl : Nat → String)
    (startPage endPage : Nat) (cd : String) : CrawlOut :=
  crawlPagesAux net tpl cd (endPage + 1 - startPage) startPage ⟨[], [], []⟩

/-- `build_search_template(keyword).format(page=page)`. -/
def searchUrl (kw : String) (page : Nat) : String :=
  "https://www.topcv.vn/tim-viec-lam-" ++ slugify kw ++
    "?type_keyword=1&page=" ++ toString page ++ "&sba=1"

/-- A finalized row of the combined frame: keyword and slug tag plus the
merged row. -/
structure TaggedRow where
  searchKeyword : String
  searchSlug : String
  row : Row
deriving DecidableEq, Repr

def tagRows (kw : String) (rows : List Row) : List TaggedRow :=
  rows.map (fun r => ⟨kw, slugify kw, r⟩)

/-- `DataFrame.drop_duplicates(subset=[key])`: keep the first occurrence of
each key. -/
def dedupKeepFirst (key : TaggedRow → String) :
    List TaggedRow → List String → List TaggedRow
  | [], _ => []
  | x :: xs, seen =>
    if key x ∈ seen then dedupKeepFirst key xs seen
    else x :: dedupKeepFirst key xs (key x :: seen)

/-- The final cross-keyword pass of `crawl_many_keywords`: an empty frame
list yields the empty frame; otherwise the concatenation is deduplicated.
The subset key is `job_url`: `"job_path"` is never a column of any frame
(no stage creates it), so the `for key in ("job_path", "job_url")` loop
always selects `"job_url"`, which every non-empty frame has. -/
def finalizeFrames (acc : List TaggedRow) : List TaggedRow :=
  if acc.isEmpty then [] else dedupKeepFirst (fun tr => tr.row.stub.jobUrl) acc []

/-- The keyword loop of `crawl_many_keywords`: a `crawl_to_dataframe`
exception propagates immediately (aborting the whole run); an empty frame
is skipped; otherwise the tagged rows are appended. -/
def crawlManyAux (net : NetF) (startPage endPage : Nat) (cd : String) :
    List String → List TaggedRow → List LogEntry →
    Except FetchErr (List TaggedRow) × List LogEntry
  | [], acc, log => (.ok (finalizeFrames acc), log)
  | kw :: rest, acc, log =>
    match (crawlToDataframe net (searchUrl kw) startPage endPage cd).err with
    | some e =>
      (.error e, log ++ (crawlToDataframe net (searchUrl kw) startPage endPage cd).log)
    | none =>
      if (crawlToDataframe net (searchUrl kw) startPage endPage cd).rows.isEmpty then
        crawlManyAux net startPage endPage cd rest acc
          (log ++ (crawlToDataframe net (searchUrl kw) startPage endPage cd).log)
      else
        crawlManyAux net startPage endPage cd rest
          (acc ++ tagRows kw (crawlToDataframe net (searchUrl kw) startPage endPage cd).rows)
          (log ++ (crawlToDataframe net (searchUrl kw) startPage endPage cd).log)

/-- `crawl_many_keywords`: final dataset (or the propagated exception) and
the full fetch log. -/
def crawlMany (net : NetF) (keywords : List String) (startPage endPage : Nat)
    (cd : String) : Except FetchErr (List TaggedRow) × List LogEntry :=
  crawlManyAux net startPage endPage cd keywords [] []

/-- Fetch-and-parse outcome for a listing URL (`none` when the fetch
raises). -/
def netStubs (net : NetF) (url : String) : Option (List Stub) :=
  match net url with
  | .ok soup => some (parseSearchSoup soup)
  | .error _ => none

/-! ## Row-scan characterization (for the first-match/last-match question) -/

/-- The value a single row contributes to a given target field: its derived
value when the row's label classifies to that field, else nothing. -/
def rowFieldVal (fld : CField) (row : CompRow) : Option String :=
  match rowLV row with
  | none => none
  | some (l, v) =>
    if classOf (collapseWS (pyLower l)) = some fld then some v else none

/-- The last `some` of a list of optional values. -/
def lastSome : List (Option String) → Option String
  | [] => none
  | x :: l =>
    match lastSome l with
    | some v => some v
    | none => x

theorem classifyRow_get (st : ScanState) (row : CompRow) (fld : CField) :
    (classifyRow st row).get fld =
      match rowFieldVal fld row with
      | some v => some v
      | none => st.get fld := by
  unfold classifyRow rowFieldVal
  cases rowLV row with
  | none => rfl
  | some lv =>
    cases hc : classOf (collapseWS (pyLower lv.1)) with
    | none => simp [hc]
    | some f => cases f <;> cases fld <;> simp [hc, ScanState.get]

theorem foldl_classify_get :
    ∀ (rows : List CompRow) (st : ScanState) (fld : CField),
      (rows.foldl classifyRow st).get fld =
        match lastSome (rows.map (rowFieldVal fld)) with
        | some v => some v
        | none => st.get fld := by
  intro rows
  induction rows with
  | nil => intro st fld; rfl
  | cons r rest ih =>
    intro st fld
    simp only [List.foldl_cons, List.map_cons, lastSome]
    rw [ih, classifyRow_get]
    cases lastSome (rest.map (rowFieldVal fld)) <;>
      cases rowFieldVal fld r <;> simp

theorem scanRows_get (rows : List CompRow) (fld : CField) :
    (scanRows rows).get fld = lastSome (rows.map (rowFieldVal fld)) := by
  unfold scanRows
  rw [foldl_classify_get]
  cases lastSome (rows.map (rowFieldVal fld)) <;> simp [initScan, ScanState.get] <;>
    cases fld <;> rfl

/-- The concrete company page for the first-match/last-match experiment:
two overview rows both classifying to the website field. -/
def c2Soup : Soup :=
  { emptySoup with
    containerSel := [some [⟨none, "Website: a"⟩, ⟨none, "Website: b"⟩]] }

end TopCV

/-- C2 counterexample: in `scrape_company`'s field-by-label scan over a
container whose two rows both classify to the website field (values `"a"`
then `"b"`), the kept value is `"b"`, the one from the LAST matching row —
the claim that the first matching row wins is false. -/
theorem TopCV.c2_first_match_false :
    (TopCV.companyOfSoup TopCV.c2Soup).companyWebsite = some "b" ∧
    (TopCV.companyOfSoup TopCV.c2Soup).companyWebsite ≠ some "a" :=
  ⟨by decide, by decide⟩

/-- C2 amended: in the field-by-label scan of `scrape_company`, for every
sequence of rows in the selected container, the value kept for each target
field (website, size, industry, address) is the one from the LAST row that
classifies to that field (each matching row overwrites the field; when no
row matches, the field is absent). -/
theorem TopCV.c2_last_match_wins (soup : TopCV.Soup) :
    (TopCV.companyOfSoup soup).companyWebsite =
      TopCV.lastSome ((TopCV.selectedRows soup).map (TopCV.rowFieldVal .website)) ∧
    (TopCV.companyOfSoup soup).companySize =
      TopCV.lastSome ((TopCV.selectedRows soup).map (TopCV.rowFieldVal .size)) ∧
    (TopCV.companyOfSoup soup).companyIndustry =
      TopCV.lastSome ((TopCV.selectedRows soup).map (TopCV.rowFieldVal .industry)) ∧
    (TopCV.companyOfSoup soup).companyAddress =
      TopCV.lastSome ((TopCV.selectedRows soup).map (TopCV.rowFieldVal .address)) :=
  ⟨TopCV.scanRows_get _ .website, TopCV.scanRows_get _ .size,
   TopCV.scanRows_get _ .industry, TopCV.scanRows_get _ .address⟩

/-- C4: in the merge step, the employer URL the company stage is fetched
from is the detail page's URL whenever the detail stage discovered one
(a present URL is a non-`None`, non-empty string), and the listing stub's
URL is used exactly when the detail stage yields none. -/
theorem TopCV.c4_employer_url_precedence :
    (∀ (d s : Option String) (B : String), d = some B → B ≠ "" →
      TopCV.resolveCompanyUrl d s = some B) ∧
    (∀ s : Option String, TopCV.resolveCompanyUrl none s = s) := by
  constructor
  · intro d s B hd hB
    subst hd
    simp [TopCV.resolveCompanyUrl, TopCV.pyOr, TopCV.pyTruthy, hB]
  · intro s
    rfl

/-- C4 witness at a concrete detail URL `B` and stub URL `A`. -/
theorem TopCV.c4_witness :
    TopCV.resolveCompanyUrl (some "https://www.topcv.vn/cong-ty/b")
      (some "https://www.topcv.vn/cong-ty/a") =
      some "https://www.topcv.vn/cong-ty/b" :=
  TopCV.c4_employer_url_precedence.1 _ _ _ rfl (by decide)

namespace TopCV

/-- The attempt loop never issues more requests than the remaining budget. -/
theorem getSoupAux_count_le (fetch : Nat → Resp) :
    ∀ rem count, (getSoupAux fetch rem count).2 ≤ count + rem := by
  intro rem
  induction rem with
  | zero => intro count; simp [getSoupAux]
  | succ n ih =>
    intro count
    cases hf : fetch (6 - (n + 1)) with
    | netErr =>
      simp only [getSoupAux, hf]
      by_cases hn : n = 0
      · rw [if_pos hn]
        show count + 1 ≤ count + (n + 1)
        omega
      · rw [if_neg hn]
        exact le_trans (ih (count + 1)) (by omega)
    | http s body =>
      simp only [getSoupAux, hf]
      by_cases h2 : s = 200
      · rw [if_pos h2]
        show count + 1 ≤ count + (n + 1)
        omega
      · rw [if_neg h2]
        by_cases h4 : s = 403
        · rw [if_pos h4]
          by_cases hn : n = 0
          · rw [if_pos hn]
            show count + 1 ≤ count + (n + 1)
            omega
          · rw [if_neg hn]
            exact le_trans (ih (count + 1)) (by omega)
        · rw [if_neg h4]
          by_cases h9 : s = 429
          · rw [if_pos h9]
            exact le_trans (ih (count + 1)) (by omega)
          · rw [if_neg h9]
            by_cases hge : 400 ≤ s
            · rw [if_pos hge]
              by_cases hn : n = 0
              · rw [if_pos hn]
                show count + 1 ≤ count + (n + 1)
                omega
              · rw [if_neg hn]
                exact le_trans (ih (count + 1)) (by omega)
            · rw [if_neg hge]
              show count + 1 ≤ count + (n + 1)
              omega

/-- Against a server answering 429 on every attempt the loop always falls
through, returning the empty soup after consuming the whole budget. -/
theorem getSoupAux_429 (fetch : Nat → Resp)
    (h : ∀ n, respStatus (fetch n) = some 429) :
    ∀ rem count, getSoupAux fetch rem count = (.ok emptySoup, count + rem) := by
  intro rem
  induction rem with
  | zero => intro count; simp [getSoupAux]
  | succ n ih =>
    intro count
    have h5 := h (6 - (n + 1))
    cases hf : fetch (6 - (n + 1)) with
    | netErr => rw [hf] at h5; simp [respStatus] at h5
    | http s body =>
      rw [hf] at h5
      simp only [respStatus, Option.some.injEq] at h5
      subst h5
      simp only [getSoupAux, hf]
      norm_num
      rw [ih (count + 1)]
      simp
      omega

/-- Against a server answering 500 on every attempt the loop retries
through the `raise_for_status` handler and re-raises on the last attempt. -/
theorem getSoupAux_500 (fetch : Nat → Resp)
    (h : ∀ n, respStatus (fetch n) = some 500) :
    ∀ rem count, 1 ≤ rem →
      getSoupAux fetch rem count = (.error (.httpError 500), count + rem) := by
  intro rem
  induction rem with
  | zero => intro count h0; omega
  | succ n ih =>
    intro count _
    have h5 := h (6 - (n + 1))
    cases hf : fetch (6 - (n + 1)) with
    | netErr => rw [hf] at h5; simp [respStatus] at h5
    | http s body =>
      rw [hf] at h5
      simp only [respStatus, Option.some.injEq] at h5
      subst h5
      simp only [getSoupAux, hf]
      norm_num
      by_cases hn : n = 0
      · subst hn; simp
      · simp only [hn, if_false]
        rw [ih (count + 1) (by omega)]
        simp
        omega

end TopCV

/-- C6: for a URL whose server responds 429 (resp. 500) on every attempt,
`get_soup` over the session issues exactly the configured maximum of 5
requests and then reports failure — an empty-content outcome for 429, a
propagated HTTP error for 500 — and for any server behaviour it never
issues more than the 5-attempt budget.  (A `session.get` is one request of
the model; the transport-level `Retry` configured in `build_session` is
internal to the HTTP library.) -/
theorem TopCV.c6_attempt_budget :
    (∀ fetch : Nat → TopCV.Resp, (TopCV.getSoup fetch).2 ≤ 5) ∧
    (∀ fetch : Nat → TopCV.Resp,
      (∀ n, TopCV.respStatus (fetch n) = some 429) →
      TopCV.getSoup fetch = (.ok TopCV.emptySoup, 5)) ∧
    (∀ fetch : Nat → TopCV.Resp,
      (∀ n, TopCV.respStatus (fetch n) = some 500) →
      TopCV.getSoup fetch = (.error (.httpError 500), 5)) :=
  ⟨fun f => by simpa using TopCV.getSoupAux_count_le f 5 0,
   fun f h => by simpa using TopCV.getSoupAux_429 f h 5 0,
   fun f h => by simpa using TopCV.getSoupAux_500 f h 5 0 (by omega)⟩

/-- C6 witness: concrete always-429 and always-500 servers. -/
theorem TopCV.c6_witness :
    TopCV.getSoup (fun _ => .http 429 TopCV.emptySoup) = (.ok TopCV.emptySoup, 5) ∧
    TopCV.getSoup (fun _ => .http 500 TopCV.emptySoup) =
      (.error (.httpError 500), 5) :=
  ⟨TopCV.c6_attempt_budget.2.1 _ (fun _ => rfl),
   TopCV.c6_attempt_budget.2.2 _ (fun _ => rfl)⟩

namespace TopCV

/-! ## Absent-field purity: present values are never the empty string -/

/-- A present optional value is a non-empty string. -/
def nzOpt (o : Option String) : Prop := ∀ s, o = some s → s ≠ ""

theorem asString_ne_empty {l : List Char} (h : l ≠ []) : l.asString ≠ "" := by
  intro hc
  exact h (by rwa [List.asString_eq, String.toList_empty] at hc)

theorem collapseWSAux_ne_nil (c : Char) (cs : List Char) :
    collapseWSAux (c :: cs) false ≠ [] := by
  simp only [collapseWSAux]
  split <;> simp

theorem collapseWS_ne_empty {t : String} (h : t ≠ "") : collapseWS t ≠ "" := by
  unfold collapseWS
  apply asString_ne_empty
  cases hl : t.toList with
  | nil => exact absurd (String.toList_inj.mp (by rw [hl]; rfl)) h
  | cons c cs => exact collapseWSAux_ne_nil c cs

theorem textOf_ne_empty {o : Option String} {s : String} (h : textOf o = some s) :
    s ≠ "" := by
  cases o with
  | none => simp [textOf] at h
  | some t =>
    by_cases ht : t = ""
    · simp [textOf, ht] at h
    · simp only [textOf, if_neg ht, Option.some.injEq] at h
      exact h ▸ collapseWS_ne_empty ht

theorem append_ne_empty_left {a b : String} (h : a ≠ "") : a ++ b ≠ "" := by
  intro hc
  apply h
  have hdata : a.toList ++ b.toList = [] := by
    have h2 : (a ++ b).toList = ("" : String).toList := by rw [hc]
    simpa using h2
  rcases List.append_eq_nil.mp hdata with ⟨ha, _⟩
  exact String.toList_inj.mp (by rw [ha]; rfl)

theorem joinSep_ne_empty (sep : String) :
    ∀ (x : String) (xs : List String), x ≠ "" → joinSep sep (x :: xs) ≠ ""
  | x, [], hx => by simpa [joinSep] using hx
  | _, _ :: _, hx => append_ne_empty_left (append_ne_empty_left hx)

theorem joinOrNone_nz {xs : List String} (hxs : ∀ x ∈ xs, x ≠ "") :
    nzOpt (joinOrNone xs) := by
  intro s hs
  unfold joinOrNone at hs
  cases xs with
  | nil => simp at hs
  | cons x rest =>
    simp only [List.isEmpty_cons, Bool.false_eq_true, if_false,
      Option.some.injEq] at hs
    exact hs ▸ joinSep_ne_empty "; " x rest (hxs x (List.mem_cons_self x rest))

theorem extractTags_ne {els : List String} : ∀ x ∈ extractTags els, x ≠ "" := by
  intro x hx
  rcases List.mem_filterMap.mp hx with ⟨r, _, hr⟩
  exact textOf_ne_empty hr

theorem workingStep_ne (heading : String) (out : List String) (item : DescItem)
    (hout : ∀ x ∈ out, x ≠ "") :
    ∀ x ∈ workingStep heading out item, x ≠ "" := by
  intro x hx
  unfold workingStep at hx
  split at hx
  · exact hout x hx
  · split at hx
    · rcases List.mem_append.mp hx with hmem | hmem
      · exact hout x hmem
      · rcases List.mem_filterMap.mp hmem with ⟨d, _, hd⟩
        exact textOf_ne_empty hd
    · exact hout x hx

theorem workingFold_ne (heading : String) :
    ∀ (items : List DescItem) (out : List String), (∀ x ∈ out, x ≠ "") →
      ∀ x ∈ items.foldl (workingStep heading) out, x ≠ ""
  | [], _, hout => hout
  | item :: items, out, hout =>
    workingFold_ne heading items _ (workingStep_ne heading out item hout)

theorem extractWorking_ne {items : List DescItem} {heading : String} :
    ∀ x ∈ extractWorking items heading, x ≠ "" :=
  workingFold_ne heading items [] (by simp)

theorem descBlockStep_nz (data : List (String × Option String)) (item : DescItem)
    (hdata : ∀ kv ∈ data, nzOpt kv.2) :
    ∀ kv ∈ descBlockStep data item, nzOpt kv.2 := by
  intro kv hkv
  unfold descBlockStep at hkv
  split at hkv
  · rename_i c hc
    rcases List.mem_append.mp hkv with hmem | hmem
    · exact hdata kv hmem
    · simp only [List.mem_singleton] at hmem
      subst hmem
      intro s hs
      exact textOf_ne_empty (show textOf (some c) = some s from hs)
  · exact hdata kv hkv

theorem descBlocksFold_nz :
    ∀ (items : List DescItem) (data : List (String × Option String)),
      (∀ kv ∈ data, nzOpt kv.2) →
      ∀ kv ∈ items.foldl descBlockStep data, nzOpt kv.2
  | [], _, h => h
  | item :: items, data, h =>
    descBlocksFold_nz items _ (descBlockStep_nz data item h)

theorem dictGet_nz {d : List (String × Option String)}
    (hd : ∀ kv ∈ d, nzOpt kv.2) (k : String) : nzOpt (dictGet d k) := by
  intro s hs
  unfold dictGet at hs
  cases hq : (d.filter (fun kv => kv.1 = k)).getLast? with
  | none => rw [hq] at hs; simp at hs
  | some kv =>
    rw [hq] at hs
    have hmem0 : kv ∈ (d.filter (fun kv => kv.1 = k)).getLast? :=
      Option.mem_def.mpr hq
    rcases List.mem_getLast?_eq_getLast hmem0 with ⟨hne, heq⟩
    have hmem : kv ∈ d.filter (fun kv => kv.1 = k) := heq ▸ List.getLast_mem hne
    exact hd kv (List.mem_of_mem_filter hmem) s hs

theorem pickInfoValue_nz :
    ∀ (secs : List InfoSection) (title : String), nzOpt (pickInfoValue secs title)
  | [], _ => by intro s hs; simp [pickInfoValue] at hs
  | sec :: rest, title => by
    intro s hs
    unfold pickInfoValue at hs
    by_cases hcond : pyLower (pyOrEmpty (textOf sec.titleEl)) = pyLower title
    · rw [if_pos hcond] at hs
      cases hv : sec.valueEl with
      | some v => rw [hv] at hs; exact textOf_ne_empty hs
      | none => rw [hv] at hs; exact textOf_ne_empty hs
    · rw [if_neg hcond] at hs
      exact pickInfoValue_nz rest title s hs

theorem matchDateAt_ne {cs m : List Char} (h : matchDateAt cs = some m) :
    m ≠ [] := by
  unfold matchDateAt at h
  cases h1 : matchDigitsSlash cs with
  | none => rw [h1] at h; simp at h
  | some p1 =>
    rw [h1] at h
    cases h2 : matchDigitsSlash p1.2 with
    | none => simp [h2] at h
    | some p2 =>
      cases h3 : takeDigits 4 p2.2 with
      | none => simp [h2, h3] at h
      | some p3 =>
        simp only [h2, h3] at h
        intro hm
        rw [hm] at h
        simp [List.append_eq_nil] at h

theorem dateSearchAux_ne :
    ∀ (cs m : List Char), dateSearchAux cs = some m → m ≠ []
  | [], m, h => by simp [dateSearchAux] at h
  | c :: cs, m, h => by
    unfold dateSearchAux at h
    cases hm : matchDateAt (c :: cs) with
    | some m' =>
      rw [hm] at h
      exact (Option.some.inj h) ▸ matchDateAt_ne hm
    | none =>
      rw [hm] at h
      exact dateSearchAux_ne cs m h

theorem dateSearch_nz (s : String) : nzOpt (dateSearch s) := by
  intro d hd
  unfold dateSearch at hd
  cases hq : dateSearchAux s.toList with
  | none => rw [hq] at hd; simp at hd
  | some m =>
    rw [hq] at hd
    simp only [Option.map_some', Option.some.injEq] at hd
    exact hd ▸ asString_ne_empty (dateSearchAux_ne _ _ hq)

theorem extractDeadline_nz : ∀ els : List String, nzOpt (extractDeadline els)
  | [] => by intro s hs; simp [extractDeadline] at hs
  | raw :: rest => by
    intro s hs
    unfold extractDeadline at hs
    split at hs
    · rename_i t ht
      split at hs
      · have hst := Option.some.inj hs
        cases hds : dateSearch t with
        | some d =>
          rw [hds, Option.getD_some] at hst
          exact hst ▸ dateSearch_nz t d hds
        | none =>
          rw [hds, Option.getD_none] at hst
          exact hst ▸ textOf_ne_empty ht
      · exact extractDeadline_nz rest s hs
    · exact extractDeadline_nz rest s hs

theorem urljoin_BASE_ne (ref : String) : urljoin BASE ref ≠ "" := by
  unfold urljoin
  split_ifs with h1 h2 h3
  · decide
  · exact h1
  · exact append_ne_empty_left (show schemeHost BASE ≠ "" by decide)
  · exact append_ne_empty_left
      (append_ne_empty_left (show schemeHost BASE ≠ "" by decide))

theorem extractCompanyLink_nz (soup : Soup) : nzOpt (extractCompanyLink soup) := by
  intro s hs
  unfold extractCompanyLink at hs
  cases h1 : soup.companyAnchor1 with
  | some h =>
    rw [h1] at hs
    exact (Option.some.inj hs) ▸ urljoin_BASE_ne h
  | none =>
    rw [h1] at hs
    cases h2 : soup.companyAnchor2 with
    | some h =>
      rw [h2] at hs
      exact (Option.some.inj hs) ▸ urljoin_BASE_ne h
    | none => rw [h2] at hs; simp at hs

theorem strongLV_value_ne {sraw rowText l v : String}
    (h : strongLV sraw rowText = some (l, v)) : v ≠ "" := by
  unfold strongLV at h
  split at h
  · simp at h
  · split at h
    · simp at h
    · rename_i hvne
      simp only [Option.some.injEq, Prod.mk.injEq] at h
      exact h.2 ▸ hvne

theorem colonLV_value_ne {rowText l v : String}
    (h : colonLV rowText = some (l, v)) : v ≠ "" := by
  unfold colonLV at h
  split at h
  · simp at h
  · split at h
    · simp at h
    · split at h
      · simp at h
      · rename_i hcond
        simp only [Bool.or_eq_true, decide_eq_true_eq, not_or] at hcond
        simp only [Option.some.injEq, Prod.mk.injEq] at h
        exact h.2 ▸ hcond.2

theorem rowLV_value_ne {row : CompRow} {l v : String}
    (h : rowLV row = some (l, v)) : v ≠ "" := by
  unfold rowLV at h
  split at h
  · exact strongLV_value_ne h
  · exact colonLV_value_ne h

theorem rowFieldVal_ne {fld : CField} {row : CompRow} {v : String}
    (h : rowFieldVal fld row = some v) : v ≠ "" := by
  unfold rowFieldVal at h
  split at h
  · simp at h
  · rename_i l w hlv
    split at h
    · exact (Option.some.inj h) ▸ rowLV_value_ne hlv
    · simp at h

theorem lastSome_mem : ∀ (l : List (Option String)) (v : String),
    lastSome l = some v → some v ∈ l
  | [], v, h => by simp [lastSome] at h
  | x :: l, v, h => by
    unfold lastSome at h
    cases hl : lastSome l with
    | some w =>
      rw [hl] at h
      exact List.mem_cons_of_mem x
        (lastSome_mem l v (hl.trans (congrArg some (Option.some.inj h))))
    | none =>
      rw [hl] at h
      exact h ▸ List.mem_cons_self x l

theorem scanField_nz (rows : List CompRow) (fld : CField) :
    nzOpt ((scanRows rows).get fld) := by
  intro v hv
  rw [scanRows_get] at hv
  rcases List.mem_map.mp (lastSome_mem _ _ hv) with ⟨row, _, heq⟩
  exact rowFieldVal_ne heq

theorem descLoop_nz : ∀ l : List (Option String), nzOpt (descLoop l none)
  | [] => by intro s hs; simp [descLoop] at hs
  | none :: rest => by
    intro s hs
    unfold descLoop at hs
    exact descLoop_nz rest s hs
  | some raw :: rest => by
    intro s hs
    unfold descLoop at hs
    cases ht : textOf (some raw) with
    | some w => rw [ht] at hs; exact (Option.some.inj hs) ▸ textOf_ne_empty ht
    | none => rw [ht] at hs; exact descLoop_nz rest s hs

/-- The company page exhibiting an empty-string field: the `og:title` meta
candidate exists with `content=""`; no later candidate matches, so the
final (falsy) accumulator value `""` is returned as the company name. -/
def c3Soup : Soup := { emptySoup with nameSel := [some (.meta (some ""))] }

/-- A listing/detail page pair used to witness the non-empty-field facts. -/
def c3WitnessSoup : Soup :=
  { emptySoup with
    jobItems := [⟨some ⟨"/viec-lam/x", "Job"⟩, none, none, none, none, none⟩]
    detailTitleEl := some "Ky su" }

/-- The stub `parse_search_page` produces from `c3WitnessSoup`. -/
def c3WitnessStub : Stub :=
  ⟨some "Job", "https://www.topcv.vn/viec-lam/x", none, none, none, none, none⟩

end TopCV

/-- C3 counterexample: `scrape_company` can return the empty string (not an
explicit absence) for `company_name_full` — here the page's `og:title` meta
element carries `content=""`, no other name candidate matches, and the
extractor returns `""` for the field, refuting the claim that no extractor
field is ever the empty string. -/
theorem TopCV.c3_empty_string_field :
    TopCV.scrapeCompany (fun _ => .ok TopCV.c3Soup)
        (some "https://www.topcv.vn/cong-ty/x") =
      .ok ⟨some "", none, none, none, none, none⟩ := by
  decide

/-- C3 amended: every field of every extractor's output is either a
non-empty value or an explicit absence (`None`), with the single exception
of `scrape_company`'s `company_name_full`, which can be the empty string
(empty `meta` content, or a name equal to the site-branding suffix). -/
theorem TopCV.c3_absent_or_nonempty (soup : TopCV.Soup) :
    (∀ st ∈ TopCV.parseSearchSoup soup,
      TopCV.nzOpt st.title ∧ st.jobUrl ≠ "" ∧ TopCV.nzOpt st.company ∧
      TopCV.nzOpt st.companyUrl ∧ TopCV.nzOpt st.salaryList ∧
      TopCV.nzOpt st.addressList ∧ TopCV.nzOpt st.expList) ∧
    (TopCV.nzOpt (TopCV.detailOfSoup soup).detailTitle ∧
      TopCV.nzOpt (TopCV.detailOfSoup soup).detailSalary ∧
      TopCV.nzOpt (TopCV.detailOfSoup soup).detailLocation ∧
      TopCV.nzOpt (TopCV.detailOfSoup soup).detailExperience ∧
      TopCV.nzOpt (TopCV.detailOfSoup soup).deadline ∧
      TopCV.nzOpt (TopCV.detailOfSoup soup).tags ∧
      TopCV.nzOpt (TopCV.detailOfSoup soup).descMota ∧
      TopCV.nzOpt (TopCV.detailOfSoup soup).descYeucau ∧
      TopCV.nzOpt (TopCV.detailOfSoup soup).descQuyenloi ∧
      TopCV.nzOpt (TopCV.detailOfSoup soup).workingAddresses ∧
      TopCV.nzOpt (TopCV.detailOfSoup soup).workingTimes ∧
      TopCV.nzOpt (TopCV.detailOfSoup soup).companyUrlFromJob) ∧
    (TopCV.nzOpt (TopCV.companyOfSoup soup).companyWebsite ∧
      TopCV.nzOpt (TopCV.companyOfSoup soup).companySize ∧
      TopCV.nzOpt (TopCV.companyOfSoup soup).companyIndustry ∧
      TopCV.nzOpt (TopCV.companyOfSoup soup).companyAddress ∧
      TopCV.nzOpt (TopCV.companyOfSoup soup).companyDescription) := by
  refine ⟨?_, ⟨?_, ?_, ?_, ?_, ?_, ?_, ?_, ?_, ?_, ?_, ?_, ?_⟩, ?_, ?_, ?_, ?_, ?_⟩
  · intro st hst
    rcases List.mem_filterMap.mp hst with ⟨item, _, hitem⟩
    unfold TopCV.stubOfItem at hitem
    split at hitem
    · simp at hitem
    · rename_i a ha
      have hrec := Option.some.inj hitem
      subst hrec
      refine ⟨?_, ?_, ?_, ?_, ?_, ?_, ?_⟩
      · intro s hs
        exact TopCV.textOf_ne_empty (show TopCV.textOf (some a.raw) = some s from hs)
      · exact TopCV.urljoin_BASE_ne a.href
      · intro s hs
        exact TopCV.textOf_ne_empty
          (show TopCV.textOf item.companyNameEl = some s from hs)
      · intro u hu
        rcases Option.map_eq_some'.mp
          (show item.compA.map (fun c => TopCV.urljoin TopCV.BASE c.href) = some u
            from hu) with ⟨c, _, hc⟩
        exact hc ▸ TopCV.urljoin_BASE_ne c.href
      · intro s hs
        exact TopCV.textOf_ne_empty (show TopCV.textOf item.salaryEl = some s from hs)
      · intro s hs
        exact TopCV.textOf_ne_empty (show TopCV.textOf item.addressEl = some s from hs)
      · intro s hs
        exact TopCV.textOf_ne_empty (show TopCV.textOf item.expEl = some s from hs)
  · intro s hs
    exact TopCV.textOf_ne_empty (show TopCV.textOf soup.detailTitleEl = some s from hs)
  · exact TopCV.pickInfoValue_nz soup.infoSections "Mức lương"
  · exact TopCV.pickInfoValue_nz soup.infoSections "Địa điểm"
  · exact TopCV.pickInfoValue_nz soup.infoSections "Kinh nghiệm"
  · exact TopCV.extractDeadline_nz soup.deadlineEls
  · exact TopCV.joinOrNone_nz TopCV.extractTags_ne
  · exact TopCV.dictGet_nz (TopCV.descBlocksFold_nz soup.descItems [] (by simp)) _
  · exact TopCV.dictGet_nz (TopCV.descBlocksFold_nz soup.descItems [] (by simp)) _
  · exact TopCV.dictGet_nz (TopCV.descBlocksFold_nz soup.descItems [] (by simp)) _
  · exact TopCV.joinOrNone_nz TopCV.extractWorking_ne
  · exact TopCV.joinOrNone_nz TopCV.extractWorking_ne
  · exact TopCV.extractCompanyLink_nz soup
  · exact TopCV.scanField_nz (TopCV.selectedRows soup) .website
  · exact TopCV.scanField_nz (TopCV.selectedRows soup) .size
  · exact TopCV.scanField_nz (TopCV.selectedRows soup) .industry
  · exact TopCV.scanField_nz (TopCV.selectedRows soup) .address
  · exact TopCV.descLoop_nz soup.descSel

/-- C3 witness: the amended theorem applied at a concrete page, discharging
the stub-membership and field-presence hypotheses. -/
theorem TopCV.c3_witness :
    TopCV.c3WitnessStub.jobUrl ≠ "" ∧ ("Ky su" : String) ≠ "" :=
  ⟨((TopCV.c3_absent_or_nonempty TopCV.c3WitnessSoup).1 TopCV.c3WitnessStub
      (by decide)).2.1,
   (TopCV.c3_absent_or_nonempty TopCV.c3WitnessSoup).2.1.1 "Ky su" (by decide)⟩

namespace TopCV

/-! ## Pagination: early stop on an empty listing page -/

theorem processStub_listing_mem {net : NetF} {cd : String} {acc : StepAcc}
    {j : Stub} {p : Nat} {u : String}
    (h : LogEntry.listing p u ∈ (processStub net cd acc j).log) :
    LogEntry.listing p u ∈ acc.log := by
  unfold processStub at h
  split at h
  · exact h
  · simp only [List.mem_append] at h
    rcases h with (h | h) | h
    · exact h
    · simp at h
    · unfold companyLogOf at h
      split at h <;> simp at h

theorem processStubs_listing_mem {net : NetF} {cd : String} :
    ∀ (stubs : List Stub) (acc : StepAcc) {p : Nat} {u : String},
      LogEntry.listing p u ∈ (stubs.foldl (processStub net cd) acc).log →
      LogEntry.listing p u ∈ acc.log
  | [], _, _, _, h => h
  | _ :: stubs, acc, _, _, h =>
    processStub_listing_mem (processStubs_listing_mem stubs _ h)

/-- A listing fetch for page `M` appears in the loop's log only if it was
already logged, or `M` is within the fetched prefix: at or after the
current page with no earlier page of the remaining range parsing to zero
stubs. -/
theorem crawlPages_listing_mem (net : NetF) (tpl : Nat → String) (cd : String) :
    ∀ (fuel page : Nat) (acc : StepAcc) (M : Nat) (u : String),
      LogEntry.listing M u ∈ (crawlPagesAux net tpl cd fuel page acc).log →
      LogEntry.listing M u ∈ acc.log ∨
        (page ≤ M ∧ ∀ p, page ≤ p → p < M → netStubs net (tpl p) ≠ some []) := by
  intro fuel
  induction fuel with
  | zero => intro page acc M u h; exact Or.inl h
  | succ n ih =>
    intro page acc M u h
    cases hr : net (tpl page) with
    | error e =>
      simp only [crawlPagesAux, hr] at h
      simp only [List.mem_append, List.mem_singleton] at h
      rcases h with h | h
      · exact Or.inl h
      · simp only [LogEntry.listing.injEq] at h
        exact Or.inr ⟨le_of_eq h.1.symm, fun p hp1 hp2 => by omega⟩
    | ok soup =>
      by_cases hempty : (parseSearchSoup soup).isEmpty
      · simp only [crawlPagesAux, hr, if_pos hempty] at h
        simp only [List.mem_append, List.mem_singleton] at h
        rcases h with h | h
        · exact Or.inl h
        · simp only [LogEntry.listing.injEq] at h
          exact Or.inr ⟨le_of_eq h.1.symm, fun p hp1 hp2 => by omega⟩
      · simp only [crawlPagesAux, hr, if_neg hempty] at h
        rcases ih (page + 1) _ M u h with hmem | ⟨h1, h2⟩
        · have hmem2 := processStubs_listing_mem _ _ hmem
          simp only [List.mem_append, List.mem_singleton] at hmem2
          rcases hmem2 with hm | hm
          · exact Or.inl hm
          · simp only [LogEntry.listing.injEq] at hm
            exact Or.inr ⟨le_of_eq hm.1.symm, fun p hp1 hp2 => by omega⟩
        · refine Or.inr ⟨by omega, fun p hp1 hp2 => ?_⟩
          by_cases hpp : p = page
          · subst hpp
            intro hcontra
            unfold netStubs at hcontra
            rw [hr] at hcontra
            simp only [Option.some.injEq] at hcontra
            rw [hcontra] at hempty
            simp at hempty
          · exact h2 p (by omega) hp2

end TopCV

/-- C5: for every keyword run, every page `N` at or after the start page
and every network behaviour, if the listing fetch+parse for page `N` yields
zero stubs, then no listing fetch is issued for page `N + 1` or any later
page of that `crawl_to_dataframe` invocation. -/
theorem TopCV.c5_early_stop (net : TopCV.NetF) (tpl : Nat → String)
    (s e cd_ : _) (N M : Nat) (u : String)
    (hsN : s ≤ N) (hNe : N ≤ e)
    (hempty : TopCV.netStubs net (tpl N) = some [])
    (hM : N < M) :
    LogEntry.listing M u ∉ (TopCV.crawlToDataframe net tpl s e cd_).log := by
  intro hmem
  rcases TopCV.crawlPages_listing_mem net tpl cd_ _ s _ M u hmem with h | ⟨_, h2⟩
  · simp at h
  · exact h2 N hsN hM hempty

namespace TopCV

/-- World for the early-stop witness: page 1 of the keyword has one job,
every other URL (page 2 included) is an empty page. -/
def c5Net : NetF := fun u =>
  if u = searchUrl "aa" 1 then
    .ok { emptySoup with jobItems := [⟨some ⟨"/j", "J"⟩, none, none, none, none, none⟩] }
  else .ok emptySoup

end TopCV

/-- C5 witness: in a concrete 3-page run whose page 2 parses to zero stubs,
no listing fetch for page 3 is issued. -/
theorem TopCV.c5_witness :
    LogEntry.listing 3 (TopCV.searchUrl "aa" 3) ∉
      (TopCV.crawlToDataframe TopCV.c5Net (TopCV.searchUrl "aa") 1 3 "d").log :=
  TopCV.c5_early_stop TopCV.c5Net (TopCV.searchUrl "aa") 1 3 "d" 2 3
    (TopCV.searchUrl "aa" 3) (by decide) (by decide) (by decide) (by decide)

namespace TopCV

/-- Against a server answering 403 on every attempt, `get_soup` returns the
empty soup (the explicit blocked-with-empty-content outcome). -/
theorem getSoupAux_403_ok (fetch : Nat → Resp)
    (h : ∀ n, respStatus (fetch n) = some 403) :
    ∀ rem count, (getSoupAux fetch rem count).1 = .ok emptySoup := by
  intro rem
  induction rem with
  | zero => intro count; simp [getSoupAux]
  | succ n ih =>
    intro count
    have h5 := h (6 - (n + 1))
    cases hf : fetch (6 - (n + 1)) with
    | netErr => rw [hf] at h5; simp [respStatus] at h5
    | http s body =>
      rw [hf] at h5
      simp only [respStatus, Option.some.injEq] at h5
      subst h5
      simp only [getSoupAux, hf]
      norm_num
      by_cases hn : n = 0
      · simp [hn]
      · simp only [hn, if_false]
        exact ih (count + 1)

/-- The page loop's behaviour at a page whose listing parses to zero
stubs: it stops with the accumulated rows, no error, and exactly one more
logged fetch. -/
theorem crawlPages_empty_stop (net : NetF) (tpl : Nat → String) (cd : String)
    (fuel page : Nat) (acc : StepAcc) (soup : Soup)
    (h1 : net (tpl page) = .ok soup) (h2 : parseSearchSoup soup = []) :
    crawlPagesAux net tpl cd (fuel + 1) page acc =
      ⟨acc.rows, none, acc.log ++ [.listing page (tpl page)]⟩ := by
  simp [crawlPagesAux, h1, h2]

/-- World for the C10 witness: every URL is an empty page. -/
def c10Net : NetF := fun _ => .ok emptySoup

end TopCV

/-- C10: a hard-blocked listing page is indistinguishable from a genuinely
empty one — `get_soup` turns the 403-on-every-attempt outcome into empty
content, the listing extractor parses it to zero stubs, and the page loop
at a zero-stub page stops silently (accumulated rows kept, no error, no
further fetch), identically for any two network behaviours that both yield
zero stubs at that page. -/
theorem TopCV.c10_blocked_indistinguishable :
    (∀ fetch : Nat → TopCV.Resp, (∀ n, TopCV.respStatus (fetch n) = some 403) →
      (TopCV.getSoup fetch).1 = .ok TopCV.emptySoup) ∧
    TopCV.parseSearchSoup TopCV.emptySoup = [] ∧
    (∀ (net : TopCV.NetF) (tpl : Nat → String) (cd_ : String)
      (fuel page : Nat) (acc : TopCV.StepAcc) (soup : TopCV.Soup),
      net (tpl page) = .ok soup → TopCV.parseSearchSoup soup = [] →
      TopCV.crawlPagesAux net tpl cd_ (fuel + 1) page acc =
        ⟨acc.rows, none, acc.log ++ [.listing page (tpl page)]⟩) ∧
    (∀ (net1 net2 : TopCV.NetF) (tpl : Nat → String) (cd_ : String)
      (fuel page : Nat) (acc : TopCV.StepAcc),
      TopCV.netStubs net1 (tpl page) = some [] →
      TopCV.netStubs net2 (tpl page) = some [] →
      TopCV.crawlPagesAux net1 tpl cd_ (fuel + 1) page acc =
        TopCV.crawlPagesAux net2 tpl cd_ (fuel + 1) page acc) := by
  refine ⟨fun fetch h => TopCV.getSoupAux_403_ok fetch h 5 0, rfl,
    TopCV.crawlPages_empty_stop, ?_⟩
  intro net1 net2 tpl cd_ fuel page acc h1 h2
  unfold TopCV.netStubs at h1 h2
  cases hr1 : net1 (tpl page) with
  | error e => rw [hr1] at h1; simp at h1
  | ok s1 =>
    rw [hr1] at h1
    simp only [Option.some.injEq] at h1
    cases hr2 : net2 (tpl page) with
    | error e => rw [hr2] at h2; simp at h2
    | ok s2 =>
      rw [hr2] at h2
      simp only [Option.some.injEq] at h2
      rw [TopCV.crawlPages_empty_stop net1 tpl cd_ fuel page acc s1 hr1 h1,
        TopCV.crawlPages_empty_stop net2 tpl cd_ fuel page acc s2 hr2 h2]

/-- C10 witness: the blocked outcome, and the loop's silent stop, at
concrete inputs. -/
theorem TopCV.c10_witness :
    ((TopCV.getSoup (fun _ => .http 403 TopCV.emptySoup)).1 =
      .ok TopCV.emptySoup) ∧
    (TopCV.crawlPagesAux TopCV.c10Net (TopCV.searchUrl "x") "d" 1 1 ⟨[], [], []⟩ =
      ⟨[], none, [.listing 1 (TopCV.searchUrl "x" 1)]⟩) ∧
    (TopCV.crawlPagesAux TopCV.c10Net (TopCV.searchUrl "x") "d" 1 1 ⟨[], [], []⟩ =
      TopCV.crawlPagesAux TopCV.c10Net (TopCV.searchUrl "x") "d" 1 1 ⟨[], [], []⟩) :=
  ⟨TopCV.c10_blocked_indistinguishable.1 _ (fun _ => rfl),
   TopCV.c10_blocked_indistinguishable.2.2.1 TopCV.c10Net (TopCV.searchUrl "x")
     "d" 0 1 ⟨[], [], []⟩ TopCV.emptySoup rfl rfl,
   TopCV.c10_blocked_indistinguishable.2.2.2 TopCV.c10Net TopCV.c10Net
     (TopCV.searchUrl "x") "d" 0 1 ⟨[], [], []⟩ rfl rfl⟩

namespace TopCV

/-! ## Listing failure propagation -/

/-- World for keyword-failure scenarios: keyword `a`'s listing raises, and
keyword `b`'s page 1 has one job. -/
def c7Net : NetF := fun u =>
  if u = searchUrl "a" 1 then .error .network
  else if u = searchUrl "b" 1 then
    .ok { emptySoup with
            jobItems := [⟨some ⟨"/jb", "JB"⟩, none, none, none, none, none⟩] }
  else .ok emptySoup

end TopCV

/-- C7 counterexample: with keyword `a`'s listing fetch failing and keyword
`b`'s page holding a job, `crawl_many_keywords` propagates the exception —
the whole run aborts with an error, no dataset is returned at all (so
keyword `b`'s record appears in no final dataset), and no fetch for
keyword `b` is ever issued, refuting the claim that remaining keywords
continue independently. -/
theorem TopCV.c7_failure_aborts_run :
    TopCV.crawlMany TopCV.c7Net ["a", "b"] 1 1 "d" =
      (.error .network, [.listing 1 (TopCV.searchUrl "a" 1)]) := by
  decide

/-- C7 amended: a listing fetch failure aborts further pagination for that
keyword (the page loop returns at once, surfacing the error, issuing no
further fetch), but `crawl_many_keywords` does not isolate it as a
per-keyword failure: the exception propagates, the remaining keywords are
never processed, and no dataset is returned. -/
theorem TopCV.c7_amended :
    (∀ (net : TopCV.NetF) (tpl : Nat → String) (cd_ : String)
      (fuel page : Nat) (acc : TopCV.StepAcc) (er : TopCV.FetchErr),
      net (tpl page) = .error er →
      TopCV.crawlPagesAux net tpl cd_ (fuel + 1) page acc =
        ⟨acc.rows, some er, acc.log ++ [.listing page (tpl page)]⟩) ∧
    (∀ (net : TopCV.NetF) (s e : Nat) (cd_ k : String) (rest : List String)
      (acc : List TopCV.TaggedRow) (log : List TopCV.LogEntry)
      (er : TopCV.FetchErr),
      (TopCV.crawlToDataframe net (TopCV.searchUrl k) s e cd_).err = some er →
      TopCV.crawlManyAux net s e cd_ (k :: rest) acc log =
        (.error er,
          log ++ (TopCV.crawlToDataframe net (TopCV.searchUrl k) s e cd_).log)) := by
  constructor
  · intro net tpl cd_ fuel page acc er h
    simp [TopCV.crawlPagesAux, h]
  · intro net s e cd_ k rest acc log er h
    simp [TopCV.crawlManyAux, h]

/-- C7 witness: both parts of the amended claim at the concrete failing
world. -/
theorem TopCV.c7_witness :
    (TopCV.crawlPagesAux TopCV.c7Net (TopCV.searchUrl "a") "d" 1 1 ⟨[], [], []⟩ =
      ⟨[], some .network, [.listing 1 (TopCV.searchUrl "a" 1)]⟩) ∧
    (TopCV.crawlManyAux TopCV.c7Net 1 1 "d" ["a", "b"] [] [] =
      (.error .network,
        [] ++ (TopCV.crawlToDataframe TopCV.c7Net (TopCV.searchUrl "a") 1 1 "d").log)) :=
  ⟨TopCV.c7_amended.1 TopCV.c7Net (TopCV.searchUrl "a") "d" 0 1 ⟨[], [], []⟩
      .network (by decide),
   TopCV.c7_amended.2 TopCV.c7Net 1 1 "d" "a" ["b"] [] [] .network (by decide)⟩

namespace TopCV

/-! ## Dedup invariants -/

/-- Path-identity inequality between two merged rows. -/
def pathNe (a b : Row) : Prop := urlPath a.stub.jobUrl ≠ urlPath b.stub.jobUrl

/-- The orchestrator's loop invariant: every accumulated row's job path is
in the seen set, and accumulated rows have pairwise distinct paths. -/
def accInv (acc : StepAcc) : Prop :=
  (∀ r ∈ acc.rows, urlPath r.stub.jobUrl ∈ acc.seen) ∧ acc.rows.Pairwise pathNe

theorem processStub_inv {net : NetF} {cd_ : String} {acc : StepAcc} {j : Stub}
    (h : accInv acc) : accInv (processStub net cd_ acc j) := by
  unfold processStub
  split
  · exact h
  · rename_i hc
    constructor
    · intro r hr
      rcases List.mem_append.mp hr with hr1 | hr2
      · exact List.mem_append.mpr (Or.inl (h.1 r hr1))
      · simp only [List.mem_singleton] at hr2
        subst hr2
        exact List.mem_append.mpr (Or.inr (by simp))
    · rw [List.pairwise_append]
      refine ⟨h.2, List.pairwise_singleton _ _, ?_⟩
      intro a ha b hb
      simp only [List.mem_singleton] at hb
      subst hb
      intro he
      exact hc (he ▸ h.1 a ha)

theorem processStubs_inv {net : NetF} {cd_ : String} :
    ∀ (stubs : List Stub) (acc : StepAcc), accInv acc →
      accInv (stubs.foldl (processStub net cd_) acc)
  | [], _, h => h
  | _ :: stubs, acc, h => processStubs_inv stubs _ (processStub_inv h)

theorem crawlPagesAux_rows_pairwise (net : NetF) (tpl : Nat → String)
    (cd_ : String) :
    ∀ (fuel page : Nat) (acc : StepAcc), accInv acc →
      (crawlPagesAux net tpl cd_ fuel page acc).rows.Pairwise pathNe
  | 0, _, _, h => h.2
  | fuel + 1, page, acc, h => by
    cases hr : net (tpl page) with
    | error e =>
      simp only [crawlPagesAux, hr]
      exact h.2
    | ok soup =>
      by_cases hempty : (parseSearchSoup soup).isEmpty
      · simp only [crawlPagesAux, hr, if_pos hempty]
        exact h.2
      · simp only [crawlPagesAux, hr, if_neg hempty]
        exact crawlPagesAux_rows_pairwise net tpl cd_ fuel (page + 1) _
          (processStubs_inv _ _ ⟨h.1, h.2⟩)

theorem dedupKeepFirst_spec (key : TaggedRow → String) :
    ∀ (l : List TaggedRow) (seen : List String),
      (dedupKeepFirst key l seen).Pairwise (fun a b => key a ≠ key b) ∧
      ∀ x ∈ dedupKeepFirst key l seen, key x ∉ seen := by
  intro l
  induction l with
  | nil => intro seen; exact ⟨List.Pairwise.nil, by simp [dedupKeepFirst]⟩
  | cons x xs ih =>
    intro seen
    unfold dedupKeepFirst
    by_cases hc : key x ∈ seen
    · simp only [if_pos hc]
      exact ih seen
    · simp only [if_neg hc]
      obtain ⟨hpw, hni⟩ := ih (key x :: seen)
      refine ⟨List.Pairwise.cons ?_ hpw, ?_⟩
      · intro y hy
        have hy2 := hni y hy
        simp only [List.mem_cons, not_or] at hy2
        exact fun he => hy2.1 he.symm
      · intro z hz
        rcases List.mem_cons.mp hz with hz1 | hz2
        · subst hz1
          exact hc
        · have hz3 := hni z hz2
          simp only [List.mem_cons, not_or] at hz3
          exact hz3.2

theorem finalizeFrames_pairwise (acc : List TaggedRow) :
    (finalizeFrames acc).Pairwise
      (fun a b => a.row.stub.jobUrl ≠ b.row.stub.jobUrl) := by
  unfold finalizeFrames
  split
  · exact List.Pairwise.nil
  · exact (dedupKeepFirst_spec _ acc []).1

theorem crawlManyAux_ok_pairwise (net : NetF) (s e : Nat) (cd_ : String) :
    ∀ (kws : List String) (acc : List TaggedRow) (log : List LogEntry)
      (rs : List TaggedRow),
      (crawlManyAux net s e cd_ kws acc log).1 = .ok rs →
      rs.Pairwise (fun a b => a.row.stub.jobUrl ≠ b.row.stub.jobUrl)
  | [], acc, log, rs, h => by
    simp only [crawlManyAux, Except.ok.injEq] at h
    exact h ▸ finalizeFrames_pairwise acc
  | kw :: rest, acc, log, rs, h => by
    simp only [crawlManyAux] at h
    split at h
    · simp at h
    · split at h
      · exact crawlManyAux_ok_pairwise net s e cd_ rest acc _ rs h
      · exact crawlManyAux_ok_pairwise net s e cd_ rest _ _ rs h

/-- World for the path-identity counterexample: the same job path
`/job/x` reached through two different full URLs (distinct query strings)
from two different keywords. -/
def c1Net : NetF := fun u =>
  if u = searchUrl "aa" 1 then
    .ok { emptySoup with
            jobItems := [⟨some ⟨"/job/x?s=a", "Job"⟩, none, none, none, none, none⟩] }
  else if u = searchUrl "bb" 1 then
    .ok { emptySoup with
            jobItems := [⟨some ⟨"/job/x?s=b", "Job"⟩, none, none, none, none, none⟩] }
  else .ok emptySoup

/-- The two surviving records of `c1Net`'s run. -/
def c1RowA : TaggedRow :=
  ⟨"aa", "aa",
    ⟨⟨some "Job", "https://www.topcv.vn/job/x?s=a", none, none, none, none, none⟩,
      allNoneDetail, allNoneComp, "d"⟩⟩

def c1RowB : TaggedRow :=
  ⟨"bb", "bb",
    ⟨⟨some "Job", "https://www.topcv.vn/job/x?s=b", none, none, none, none, none⟩,
      allNoneDetail, allNoneComp, "d"⟩⟩

end TopCV

/-- C1 counterexample: the final dataset of a two-keyword run contains two
records with the same job-URL-path identity `/job/x` — the cross-keyword
dedup pass keys on the full `job_url` (a `job_path` column never exists),
so two URLs differing only in their query strings both survive, refuting
the claim for all inputs. -/
theorem TopCV.c1_path_identity_fails :
    (TopCV.crawlMany TopCV.c1Net ["aa", "bb"] 1 1 "d").1.map
        (fun rs => rs.map (fun tr => TopCV.urlPath tr.row.stub.jobUrl)) =
      .ok ["/job/x", "/job/x"] := by
  decide

/-- C1 amended: within one `crawl_to_dataframe` invocation the seen set
guarantees pairwise-distinct job-URL paths, and the final cross-keyword
pass guarantees pairwise-distinct full job URLs; records from different
keywords may still share a path identity when their full URLs differ. -/
theorem TopCV.c1_dedup_guarantees :
    (∀ (net : TopCV.NetF) (kws : List String) (s e : Nat) (cd_ : String)
      (rs : List TopCV.TaggedRow),
      (TopCV.crawlMany net kws s e cd_).1 = .ok rs →
      rs.Pairwise (fun a b => a.row.stub.jobUrl ≠ b.row.stub.jobUrl)) ∧
    (∀ (net : TopCV.NetF) (tpl : Nat → String) (s e : Nat) (cd_ : String),
      (TopCV.crawlToDataframe net tpl s e cd_).rows.Pairwise TopCV.pathNe) :=
  ⟨fun net kws s e cd_ rs h =>
    TopCV.crawlManyAux_ok_pairwise net s e cd_ kws [] [] rs h,
   fun net tpl s e cd_ =>
    TopCV.crawlPagesAux_rows_pairwise net tpl cd_ _ s _
      ⟨by simp, List.Pairwise.nil⟩⟩

/-- C1 witness: the amended guarantee applied to the concrete two-keyword
run (whose two records share a path but not a full URL). -/
theorem TopCV.c1_witness :
    List.Pairwise (fun a b => a.row.stub.jobUrl ≠ b.row.stub.jobUrl)
      [TopCV.c1RowA, TopCV.c1RowB] :=
  TopCV.c1_dedup_guarantees.1 TopCV.c1Net ["aa", "bb"] 1 1 "d"
    [TopCV.c1RowA, TopCV.c1RowB] (by decide)

namespace TopCV

/-! ## The blocked-detail scenario (keyword "Data Analyst", pages 1..1) -/

def c9ListItem1 : JobItem :=
  ⟨some ⟨"/viec-lam/j1", "DA Junior"⟩, some ⟨"/cong-ty/c1", "C1"⟩,
    some "Cong ty 1", some "10 trieu", some "Ha Noi", some "1 nam"⟩

/-- Job 2's listing entry with no employer URL in the stub. -/
def c9ListItem2 : JobItem :=
  ⟨some ⟨"/viec-lam/j2", "DA Senior"⟩, none, none, none, none, none⟩

/-- Job 2's listing entry when the stub does carry an employer URL. -/
def c9ListItem2C : JobItem :=
  ⟨some ⟨"/viec-lam/j2", "DA Senior"⟩, some ⟨"/cong-ty/c2", "C2"⟩,
    none, none, none, none⟩

/-- Job 1's fully populated detail page. -/
def c9DetailSoup : Soup :=
  { emptySoup with
    detailTitleEl := some "DA Junior"
    infoSections :=
      [⟨some "Mức lương", some "10 trieu", "s"⟩,
       ⟨some "Địa điểm", some "Ha Noi", "s"⟩,
       ⟨some "Kinh nghiệm", some "1 nam", "s"⟩]
    deadlineEls := ["Hạn nộp 31/12/2026"]
    tagEls := ["Tag1"]
    descItems :=
      [⟨some "Mô tả công việc", some "mota", []⟩,
       ⟨some "Yêu cầu ứng viên", some "yeucau", []⟩,
       ⟨some "Quyền lợi", some "quyenloi", []⟩,
       ⟨some "Địa điểm làm việc", some "dd", ["Ha Noi 1"]⟩,
       ⟨some "Thời gian làm việc", some "tg", ["T2-T6"]⟩]
    companyAnchor1 := some "/cong-ty/c1d" }

/-- Job 1's employer profile page (reached via the detail page's URL). -/
def c9CompanySoup1 : Soup :=
  { emptySoup with
    nameSel := [some (.elem "Cong ty TNHH 1")]
    containerSel :=
      [some [⟨none, "Website: https://c1.vn"⟩, ⟨none, "Quy mô: 100"⟩,
             ⟨none, "Lĩnh vực: IT"⟩, ⟨none, "Địa chỉ: HN"⟩]]
    descSel := [some "Mo ta cong ty 1"] }

/-- Job 2's employer profile page in the counterexample world. -/
def c9CompanySoup2 : Soup :=
  { emptySoup with
    containerSel := [some [⟨none, "Website: https://c2.vn"⟩]] }

/-- The scenario world: listing yields 2 stubs, job 1's detail and company
fetches succeed, job 2's detail URL is 403-blocked on all five attempts
(`blockedOutcome` is the real `get_soup` outcome for that server), and the
stub of job 2 carries no employer URL. -/
def c9NetA : NetF := fun u =>
  if u = searchUrl "Data Analyst" 1 then
    .ok { emptySoup with jobItems := [c9ListItem1, c9ListItem2] }
  else if u = "https://www.topcv.vn/viec-lam/j1" then .ok c9DetailSoup
  else if u = "https://www.topcv.vn/viec-lam/j2" then blockedOutcome
  else if u = "https://www.topcv.vn/cong-ty/c1d" then .ok c9CompanySoup1
  else .ok emptySoup

/-- Same scenario except job 2's stub carries employer URL `/cong-ty/c2`,
whose page is live. -/
def c9NetC : NetF := fun u =>
  if u = searchUrl "Data Analyst" 1 then
    .ok { emptySoup with jobItems := [c9ListItem1, c9ListItem2C] }
  else if u = "https://www.topcv.vn/viec-lam/j1" then .ok c9DetailSoup
  else if u = "https://www.topcv.vn/viec-lam/j2" then blockedOutcome
  else if u = "https://www.topcv.vn/cong-ty/c1d" then .ok c9CompanySoup1
  else if u = "https://www.topcv.vn/cong-ty/c2" then .ok c9CompanySoup2
  else .ok emptySoup

def c9Stub1 : Stub :=
  ⟨some "DA Junior", "https://www.topcv.vn/viec-lam/j1", some "Cong ty 1",
    some "https://www.topcv.vn/cong-ty/c1", some "10 trieu", some "Ha Noi",
    some "1 nam"⟩

def c9Stub2 : Stub :=
  ⟨some "DA Senior", "https://www.topcv.vn/viec-lam/j2", none, none, none,
    none, none⟩

def c9Detail1 : DetailRec :=
  ⟨some "DA Junior", some "10 trieu", some "Ha Noi", some "1 nam",
    some "31/12/2026", some "Tag1", some "mota", some "yeucau",
    some "quyenloi", some "Ha Noi 1", some "T2-T6",
    some "https://www.topcv.vn/cong-ty/c1d"⟩

def c9Comp1 : CompanyRec :=
  ⟨some "Cong ty TNHH 1", some "https://c1.vn", some "100", some "IT",
    some "HN", some "Mo ta cong ty 1"⟩

end TopCV

/-- C9 counterexample: in the stated scenario (2 stubs, job 1's detail
succeeds, job 2's detail 403-blocked on all attempts) job 2's company
fields are NOT all absent when its listing stub carries an employer URL —
the orchestrator falls back to the stub's URL and still fetches the
company page, yielding `company_website = "https://c2.vn"` for job 2. -/
theorem TopCV.c9_company_fields_not_absent :
    (TopCV.crawlMany TopCV.c9NetC ["Data Analyst"] 1 1 "2026-02-03").1.map
        (fun rs => rs.map (fun tr => tr.row.comp.companyWebsite)) =
      .ok [some "https://c1.vn", some "https://c2.vn"] := by
  decide

/-- C9 amended: in the scenario (keyword "Data Analyst", pages 1..1, two
stubs, job 1's detail and company fetches succeed, job 2's detail
403-blocked on all attempts) the result has exactly 2 JobRecords; job 1's
record is fully populated (stub, detail and company parts all present) and
job 2's detail and company fields are all absent, provided job 2's listing
stub carried no employer URL (otherwise the company stage still runs from
the stub's URL). -/
theorem TopCV.c9_scenario :
    (TopCV.crawlMany TopCV.c9NetA ["Data Analyst"] 1 1 "2026-02-03").1.map
        (fun rs => rs.map (fun tr => (tr.row.stub, tr.row.detail, tr.row.comp))) =
      .ok [(TopCV.c9Stub1, TopCV.c9Detail1, TopCV.c9Comp1),
        (TopCV.c9Stub2, TopCV.allNoneDetail, TopCV.allNoneComp)] := by
  decide

/-- C8: `slugify` is a pure, deterministic, total function (it is a Lean
`def`, hence total and deterministic: repeated applications to the same
input are definitionally identical), and it maps `"Data Engineer"` to
`"data-engineer"` and `"Kỹ sư phần mềm"` to `"ky-su-phan-mem"`. -/
theorem TopCV.c8_slugify_pure :
    TopCV.slugify "Data Engineer" = "data-engineer" ∧
    TopCV.slugify "Kỹ sư phần mềm" = "ky-su-phan-mem" ∧
    ∀ s : String, TopCV.slugify s = TopCV.slugify s :=
  ⟨by decide, by decide, fun _ => rfl⟩
